import Mathlib

/-!
# OOFEM: `LatticeViscoelastic` material and `HOMExportModule`

A shallow embedding of

* `src/sm/Materials/LatticeMaterials/latticeviscoelastic.C`
  (`LatticeViscoelastic`, `LatticeViscoelasticStatus`), and
* `src/oofemlib/homexportmodule.C` (`HOMExportModule::doOutput`),

followed by theorems about the embedded functions.

Conventions of the embedding.

* A C++ `double` is a `Dbl`: a finite double is the rational number it denotes,
  next to the IEEE special values `+inf`, `-inf` and `NaN`. The operators `+`,
  `*`, `/` compute the exact result and round it as IEEE 754 binary64 does in
  the default mode (to nearest, ties to even, overflow to an infinity, gradual
  underflow). The sign of zero is not modelled.
* A fatal `OOFEM_ERROR`, and the dereference of a null pointer, end the
  evaluation: functions that can reach one return `Except Fault _`.
* Mutable objects are passed and returned explicitly.
* `fprintf` calls on the output stream are recorded as a list of `Chunk`s, one
  per call (or per conversion), in the order in which they are issued.
-/

namespace oofem

/-! ## Numbers and arrays -/

/-- A C++ `double`: a finite value (the rational it denotes) or an IEEE special
value. The sign of zero is not modelled. -/
inductive Dbl
  | fin (q : ℚ)
  | pinf
  | ninf
  | nan
  deriving DecidableEq

namespace Dbl

/-- The integer nearest to `t`, the even one of the two when `t` is half way. -/
def roundHalfEven (t : ℚ) : ℤ :=
  if t - ⌊t⌋ < 1 / 2 then ⌊t⌋
  else if 1 / 2 < t - ⌊t⌋ then ⌊t⌋ + 1
  else if ⌊t⌋ % 2 = 0 then ⌊t⌋
  else ⌊t⌋ + 1

/-- The spacing of the doubles around the magnitude `a > 0`: `2 ^ (e - 52)` for
`2 ^ e ≤ a < 2 ^ (e + 1)`, and `2 ^ (-1074)` in the subnormal range below
`2 ^ (-1022)`. -/
def ulp (a : ℚ) : ℚ :=
  (2 : ℚ) ^ (max (Int.log 2 a) (-1022) - 52)

/-- The magnitude `a > 0` rounded to a multiple of the spacing around it. -/
def roundMagnitude (a : ℚ) : ℚ :=
  (roundHalfEven (a / ulp a) : ℚ) * ulp a

/-- The double that an exact result `q` is rounded to: to nearest, ties to even;
a magnitude that rounds to `2 ^ 1024` or more overflows to an infinity. -/
def round (q : ℚ) : Dbl :=
  if q = 0 then fin 0
  else if (2 : ℚ) ^ 1024 ≤ roundMagnitude |q| then (if 0 < q then pinf else ninf)
  else fin (if 0 < q then roundMagnitude |q| else -roundMagnitude |q|)

/-- The operator `+` on doubles. -/
def add : Dbl → Dbl → Dbl
  | fin a, fin b => round (a + b)
  | nan, _ => nan
  | _, nan => nan
  | pinf, ninf => nan
  | ninf, pinf => nan
  | pinf, _ => pinf
  | _, pinf => pinf
  | ninf, _ => ninf
  | _, ninf => ninf

/-- The product of an infinity (positive when `pos`) with the finite value `q`. -/
def infTimes (pos : Bool) (q : ℚ) : Dbl :=
  if q = 0 then nan else if (decide (0 < q)) = pos then pinf else ninf

/-- The operator `*` on doubles. -/
def mul : Dbl → Dbl → Dbl
  | fin a, fin b => round (a * b)
  | nan, _ => nan
  | _, nan => nan
  | fin a, pinf => infTimes true a
  | fin a, ninf => infTimes false a
  | pinf, fin b => infTimes true b
  | ninf, fin b => infTimes false b
  | pinf, pinf => pinf
  | pinf, ninf => ninf
  | ninf, pinf => ninf
  | ninf, ninf => pinf

/-- The operator `/` on doubles. A zero divisor is `+0`: the only division of
the embedded code is `1. / VolTot`, whose divisor is a sum started at `0.`. -/
def div : Dbl → Dbl → Dbl
  | fin a, fin b =>
      if b = 0 then (if a = 0 then nan else if 0 < a then pinf else ninf)
      else round (a / b)
  | nan, _ => nan
  | _, nan => nan
  | fin _, pinf => fin 0
  | fin _, ninf => fin 0
  | pinf, fin b => if 0 ≤ b then pinf else ninf
  | ninf, fin b => if 0 ≤ b then ninf else pinf
  | pinf, pinf => nan
  | pinf, ninf => nan
  | ninf, pinf => nan
  | ninf, ninf => nan

/-- The operator `!=` on doubles: `NaN` is unequal to everything, itself included. -/
def ne : Dbl → Dbl → Bool
  | nan, _ => true
  | _, nan => true
  | a, b => decide (a ≠ b)

/-- Whether the double is a finite number (`std::isfinite`). -/
def isFinite : Dbl → Bool
  | fin _ => true
  | _ => false

end Dbl

/-- The class `FloatArray`: a resizable array of doubles. -/
abbrev FloatArray := List Dbl

/-- The class `IntArray`: a resizable array of integers. -/
abbrev IntArray := List Int

/-- The class `FloatMatrix`, as the list of its rows. -/
abbrev FloatMatrix := List (List Dbl)

/-- The ways an evaluation is cut short. -/
inductive Fault
  /-- A fatal `OOFEM_ERROR(msg)`. -/
  | error (msg : String)
  /-- A member access through a null pointer. -/
  | nullPointer
  deriving DecidableEq

namespace FloatArray

/-- Modelled from the spec: `FloatArray::resize(n)`, declared outside the sources;
the array gets `n` components, the kept ones unchanged and the new ones zero. -/
def resize (a : FloatArray) (n : Nat) : FloatArray :=
  a.take n ++ List.replicate (n - a.length) (Dbl.fin 0)

/-- Modelled from the spec: `FloatArray::zero()`, declared outside the sources;
every component becomes zero. -/
def zero (a : FloatArray) : FloatArray :=
  a.map (fun _ => Dbl.fin 0)

/-- Modelled from the spec: `FloatArray::times(f)`, declared outside the sources;
every component is multiplied by `f`. -/
def times (a : FloatArray) (f : Dbl) : FloatArray :=
  a.map (fun x => Dbl.mul x f)

/-- Modelled from the spec: `FloatArray::add(factor, b)`, declared outside the
sources, the accumulation `a += factor * b` behind `Σ(weight_i * value_i)`. An
empty receiver takes the size of `b`; two arrays of different sizes are a fatal
dimension mismatch. -/
def add (a : FloatArray) (factor : Dbl) (b : FloatArray) : Except Fault FloatArray :=
  if a.isEmpty then
    .ok (b.map (fun x => Dbl.mul factor x))
  else if a.length ≠ b.length then
    .error (Fault.error "dimension mismatch in a->add(b)")
  else
    .ok (List.zipWith (fun x y => Dbl.add x (Dbl.mul factor y)) a b)

end FloatArray

namespace FloatMatrix

/-- Modelled from the spec: `FloatMatrix::resize(rows, cols)`, declared outside
the sources; the matrix gets the given shape, filled with zeros. -/
def resize (_m : FloatMatrix) (rows cols : Nat) : FloatMatrix :=
  List.replicate rows (List.replicate cols (Dbl.fin 0))

/-- Modelled from the spec: `FloatMatrix::zero()`, declared outside the sources. -/
def zero (m : FloatMatrix) : FloatMatrix :=
  m.map (fun row => row.map (fun _ => Dbl.fin 0))

/-- Modelled from the spec: `FloatMatrix::times(f)`, declared outside the sources;
every entry is multiplied by `f`. -/
def times (m : FloatMatrix) (f : Dbl) : FloatMatrix :=
  m.map (fun row => row.map (fun x => Dbl.mul x f))

end FloatMatrix

/-! ## Framework objects -/

/-- The enumeration `MaterialMode`. Its declaration is outside the sources; the
enumerator `_3dLattice` is the one the code names, every other enumerator is
`other` with its position in the enumeration. -/
inductive MaterialMode
  | _3dLattice
  | other (tag : Nat)
  deriving DecidableEq

/-- The enumeration `MatResponseMode`, by the position of the enumerator. -/
abbrev MatResponseMode := Nat

/-- The type `ContextMode` of the save and restore operations. -/
abbrev ContextMode := Nat

/-- The class `TimeStep`: the step number and its target time. -/
structure TimeStep where
  number : Nat
  targetTime : Dbl

/-- The class `DataStream`, as the sequence of the arrays written to it. -/
abbrev DataStream := List FloatArray

/-- Modelled from the spec: `MaterialStatus`, the State Record of an integration
point (its class is declared outside the sources): the committed history
variables, valid at the last converged step, and the temp ones of the trial
step. -/
structure MaterialStatus where
  committed : FloatArray
  temp : FloatArray
  deriving DecidableEq

namespace MaterialStatus

/-- Modelled from the spec: `initTempStatus` of the State Record; the temp fields
start the step from the committed ones. -/
def initTempStatus (s : MaterialStatus) : MaterialStatus :=
  { s with temp := s.committed }

/-- Modelled from the spec: `updateYourself` of the State Record, the commit;
the temp fields are promoted to the committed ones. -/
def updateYourself (s : MaterialStatus) (_tStep : TimeStep) : MaterialStatus :=
  { s with committed := s.temp }

/-- Modelled from the spec: `saveContext` of the State Record; the committed
fields (never the temp ones) are written to the stream. -/
def saveContext (s : MaterialStatus) (stream : DataStream) (_mode : ContextMode) :
    Except Fault DataStream :=
  .ok (stream ++ [s.committed])

/-- Modelled from the spec: `restoreContext` of the State Record; the committed
fields are read back, and a stream without them fails the restore. -/
def restoreContext (s : MaterialStatus) (stream : DataStream) (_mode : ContextMode) :
    Except Fault (MaterialStatus × DataStream) :=
  match stream with
  | [] => .error (Fault.error "restoreContext: cannot read from stream")
  | rec :: rest => .ok ({ s with committed := rec }, rest)

end MaterialStatus

/-- The class `LatticeMaterialStatus`, declared outside the sources: the State
Record of the lattice materials. -/
abbrev LatticeMaterialStatus := MaterialStatus

/-- The class `GaussPoint`, with the material status attached to it (`none`
while no status has been created). -/
structure GaussPoint (σ : Type) where
  number : Nat
  naturalCoordinates : FloatArray
  weight : Dbl
  materialMode : MaterialMode
  status : Option σ

/-- The class `LatticeViscoelasticStatus`: the lattice status and the integration
point `slaveGpVisco` created for the viscoelastic slave material. -/
structure LatticeViscoelasticStatus where
  toLatticeMaterialStatus : LatticeMaterialStatus
  slaveGpVisco : GaussPoint MaterialStatus

/-- The class `RheoChainMaterial`, as far as the code uses it: the two accessors
`giveAlphaOne`, `giveAlphaTwo` and the incremental modulus `giveEModulus`. -/
structure RheoChainMaterial where
  alphaOne : Dbl
  alphaTwo : Dbl
  giveEModulus : GaussPoint MaterialStatus → TimeStep → Dbl

/-- A material of the domain: a rheologic-chain material, or a material of
another class (for which the `dynamic_cast` to `RheoChainMaterial` is null). -/
inductive Material
  | rheoChain (m : RheoChainMaterial)
  | other (className : String)

/-- The class `Element`, as far as `HOMExportModule` uses it: its number, the
points of its default integration rule, and the two virtual functions
`computeVolumeAround` and `giveGlobalIPValue` (the value left in `ipState`). -/
structure Element where
  number : Int
  defaultIntegrationRule : List (GaussPoint MaterialStatus)
  computeVolumeAround : GaussPoint MaterialStatus → Dbl
  giveGlobalIPValue : GaussPoint MaterialStatus → Int → TimeStep → FloatArray

/-- The class `Domain`: its materials and its elements. -/
structure Domain where
  materialList : List Material
  elementList : List Element

/-- Modelled from the spec: `Domain::giveMaterial(n)`, declared outside the
sources; materials are numbered from 1 and a missing one is fatal. -/
def Domain.giveMaterial (d : Domain) (n : Int) : Except Fault Material :=
  if n < 1 then .error (Fault.error "undefined material")
  else
    match d.materialList.get? (n.toNat - 1) with
    | some m => .ok m
    | none => .error (Fault.error "undefined material")

/-- The input record of a material, as far as the code reads it: the field
`slaveMat` and the fields of the base class. -/
structure InputRecord where
  slaveMat : Option Int
  baseFields : List (String × Dbl)

/-- The macro `IR_GIVE_FIELD`: a missing mandatory field is fatal. -/
def IR_GIVE_FIELD (field : Option Int) : Except Fault Int :=
  match field with
  | some v => .ok v
  | none => .error (Fault.error "missing mandatory field")

/-! ## `LatticeViscoelastic` -/

/-- The class `LatticeLinearElastic`, as far as the code reads it: the reference
modulus `eNormalMean` and the two exponents `alphaOne`, `alphaTwo`. -/
structure LatticeLinearElastic where
  eNormalMean : Dbl
  alphaOne : Dbl
  alphaTwo : Dbl

/-- The class `LatticeViscoelastic`: a lattice linear elastic material with the
number `slaveMat` of its viscoelastic slave material. -/
structure LatticeViscoelastic extends LatticeLinearElastic where
  slaveMat : Int

namespace LatticeViscoelastic

/-- `LatticeViscoelastic::hasMaterialModeCapability`. -/
def hasMaterialModeCapability (mode : MaterialMode) : Bool :=
  mode == MaterialMode._3dLattice

/-- `LatticeViscoelastic::giveViscoelasticMaterial`: the material number
`slaveMat` of the domain, cast to `RheoChainMaterial` (`none` is the null
pointer of a failed `dynamic_cast`). -/
def giveViscoelasticMaterial (self : LatticeViscoelastic) (domain : Domain) :
    Except Fault (Option RheoChainMaterial) :=
  match domain.giveMaterial self.slaveMat with
  | .error e => .error e
  | .ok (Material.rheoChain m) => .ok (some m)
  | .ok (Material.other _) => .ok none

/-- `LatticeViscoelastic::initializeFrom`. The base-class function
`LatticeLinearElastic::initializeFrom` is outside the sources and is the
parameter `baseInit`; the result is the initialized material. -/
def initializeFrom (baseInit : InputRecord → Except Fault LatticeLinearElastic)
    (domain : Domain) (ir : InputRecord) : Except Fault LatticeViscoelastic :=
  match baseInit ir with
  | .error e => .error e
  | .ok base =>
    match IR_GIVE_FIELD ir.slaveMat with
    | .error e => .error e
    | .ok slaveMat =>
      let self : LatticeViscoelastic := { toLatticeLinearElastic := base, slaveMat := slaveMat }
      match self.giveViscoelasticMaterial domain with
      | .error e => .error e
      | .ok none => .error Fault.nullPointer
      | .ok (some rChM) =>
        if Dbl.ne rChM.alphaOne self.alphaOne then
          .error (Fault.error
            "a1 must be set to the same value in both master and viscoelastic slave materials")
        else if Dbl.ne rChM.alphaTwo self.alphaTwo then
          .error (Fault.error
            "a2 must be set to the same value in both master and viscoelastic slave materials")
        else
          .ok self

/-- `LatticeViscoelastic::giveLatticeStress3d`: the stress vector, and the
integration point (with its status) as the call leaves it. -/
def giveLatticeStress3d (_self : LatticeViscoelastic) (_totalStrain : FloatArray)
    (gp : GaussPoint LatticeViscoelasticStatus) (_tStep : TimeStep) :
    FloatArray × GaussPoint LatticeViscoelasticStatus :=
  let answer : FloatArray := []
  let answer := answer.resize 6
  let answer := answer.zero
  (answer, gp)

/-- `LatticeViscoelastic::give3dLatticeStiffnessMatrix`. -/
def give3dLatticeStiffnessMatrix (_self : LatticeViscoelastic) (_rmode : MatResponseMode)
    (_gp : GaussPoint LatticeViscoelasticStatus) (_tStep : TimeStep) : FloatMatrix :=
  let answer : FloatMatrix := []
  let answer := answer.resize 6 6
  let answer := answer.zero
  answer

/-- The coupling rule of the specification for the tangent operator: the
reference (linear elastic) operator `ref` times the ratio of the slave's
incremental modulus to the reference modulus `eNormalMean`. -/
def scaledReferenceStiffness (self : LatticeViscoelastic) (ref : FloatMatrix)
    (rChMat : RheoChainMaterial) (slaveGp : GaussPoint MaterialStatus) (tStep : TimeStep) :
    FloatMatrix :=
  ref.times (Dbl.div (rChMat.giveEModulus slaveGp tStep) self.eNormalMean)

end LatticeViscoelastic

/-! ## `LatticeViscoelasticStatus` -/

namespace LatticeViscoelasticStatus

/-- `LatticeViscoelasticStatus::giveViscoelasticMatStatus`: the status of the
viscoelastic slave material; the function returns the null pointer. -/
def giveViscoelasticMatStatus (_self : LatticeViscoelasticStatus) : Option MaterialStatus :=
  none

/-- `LatticeViscoelasticStatus::initTempStatus`. -/
def initTempStatus (self : LatticeViscoelasticStatus) : LatticeViscoelasticStatus :=
  { self with toLatticeMaterialStatus := self.toLatticeMaterialStatus.initTempStatus }

/-- `LatticeViscoelasticStatus::updateYourself`: the slave status `mS` is
updated through the pointer, then the lattice status. The slave status is the
one attached to `slaveGpVisco`. -/
def updateYourself (self : LatticeViscoelasticStatus) (tStep : TimeStep) :
    Except Fault LatticeViscoelasticStatus :=
  match self.giveViscoelasticMatStatus with
  | none => .error Fault.nullPointer
  | some mS =>
    let mS := mS.updateYourself tStep
    .ok { toLatticeMaterialStatus := self.toLatticeMaterialStatus.updateYourself tStep,
          slaveGpVisco := { self.slaveGpVisco with status := some mS } }

/-- `LatticeViscoelasticStatus::saveContext`: the parent class status is saved,
then the slave status through the pointer. -/
def saveContext (self : LatticeViscoelasticStatus) (stream : DataStream) (mode : ContextMode) :
    Except Fault DataStream :=
  match self.toLatticeMaterialStatus.saveContext stream mode with
  | .error e => .error e
  | .ok stream =>
    match self.giveViscoelasticMatStatus with
    | none => .error Fault.nullPointer
    | some mS => mS.saveContext stream mode

/-- `LatticeViscoelasticStatus::restoreContext`: the parent class status is
restored, then the slave status through the pointer. The result is the restored
status and the rest of the stream. -/
def restoreContext (self : LatticeViscoelasticStatus) (stream : DataStream)
    (mode : ContextMode) : Except Fault (LatticeViscoelasticStatus × DataStream) :=
  match self.toLatticeMaterialStatus.restoreContext stream mode with
  | .error e => .error e
  | .ok (base, stream) =>
    match self.giveViscoelasticMatStatus with
    | none => .error Fault.nullPointer
    | some mS =>
      match mS.restoreContext stream mode with
      | .error e => .error e
      | .ok (mS, stream) =>
        .ok ({ toLatticeMaterialStatus := base,
               slaveGpVisco := { self.slaveGpVisco with status := some mS } }, stream)

end LatticeViscoelasticStatus

/-! ## `HOMExportModule` -/

/-- One `fprintf` on the output stream of the export module. -/
inductive Chunk
  /-- The conversion `%.3e` of a double, followed by the blanks `pad`. -/
  | fmt3e (x : Dbl) (pad : String)
  /-- The conversion `%d` of an array size, followed by one blank. -/
  | fmtD (n : Nat)
  /-- The conversion `%e` of a double, followed by one blank. -/
  | fmtE (x : Dbl)
  /-- A literal text. -/
  | text (s : String)
  deriving DecidableEq

/-- The class `HOMExportModule`: the requested internal state types `ists`, the
flag `reactions`, the factor `scale`; and of its base class `ExportModule` the
factor `timeScale`, the element lists of the region sets
(`giveRegionSet(ireg)->giveElementList()` for `ireg` from 1 to
`giveNumberOfRegions()`) and the test `testTimeStepOutput`. -/
structure HOMExportModule where
  ists : IntArray
  reactions : Bool
  scale : Dbl
  timeScale : Dbl
  regionSets : List IntArray
  testTimeStepOutput : TimeStep → Bool

namespace HOMExportModule

/-- The list `elements` of `doOutput`: the element lists of the regions, each
appended (`IntArray::followedBy`) to the ones before. -/
def assembleElements (regionSets : List IntArray) : IntArray :=
  regionSets.foldl (fun elements list => elements ++ list) []

/-- The loop of `doOutput` over the integration points of one element: `VolTot`
and `avgState` after the points `gps`, starting from the pair given. -/
def accumulatePoints (elem : Element) (ist : Int) (tStep : TimeStep) :
    List (GaussPoint MaterialStatus) → Dbl × FloatArray → Except Fault (Dbl × FloatArray)
  | [], acc => .ok acc
  | gp :: rest, (VolTot, avgState) =>
    let dV := elem.computeVolumeAround gp
    let VolTot := Dbl.add VolTot dV
    let ipState := elem.giveGlobalIPValue gp ist tStep
    match avgState.add dV ipState with
    | .error e => .error e
    | .ok avgState => accumulatePoints elem ist tStep rest (VolTot, avgState)

/-- The loop of `doOutput` over the elements of the domain: an element whose
number the list `elements` contains adds its integration points. -/
def accumulateElements (elements : IntArray) (ist : Int) (tStep : TimeStep) :
    List Element → Dbl × FloatArray → Except Fault (Dbl × FloatArray)
  | [], acc => .ok acc
  | elem :: rest, acc =>
    if elements.contains elem.number then
      match accumulatePoints elem ist tStep elem.defaultIntegrationRule acc with
      | .error e => .error e
      | .ok acc => accumulateElements elements ist tStep rest acc
    else
      accumulateElements elements ist tStep rest acc

/-- The accumulation of `doOutput` for one internal state type: `VolTot` and
`avgState` (before the scaling) over the domain. -/
def accumulate (elements : IntArray) (d : Domain) (ist : Int) (tStep : TimeStep) :
    Except Fault (Dbl × FloatArray) :=
  accumulateElements elements ist tStep d.elementList (Dbl.fin 0, [])

/-- The averaged state of `doOutput` for one internal state type: `VolTot`, and
`avgState` after `avgState.times( 1. / VolTot * this->scale )`. -/
def averagedState (self : HOMExportModule) (elements : IntArray) (d : Domain) (ist : Int)
    (tStep : TimeStep) : Except Fault (Dbl × FloatArray) :=
  match accumulate elements d ist tStep with
  | .error e => .error e
  | .ok (VolTot, avgState) =>
    .ok (VolTot, avgState.times (Dbl.mul (Dbl.div (Dbl.fin 1) VolTot) self.scale))

/-- The loop of `doOutput` over the internal state types `ists`, with the flag
`volExported`: what the loop prints. -/
def outputStates (self : HOMExportModule) (elements : IntArray) (d : Domain)
    (tStep : TimeStep) : List Int → Bool → Except Fault (List Chunk)
  | [], _ => .ok []
  | ist :: rest, volExported =>
    match self.averagedState elements d ist tStep with
    | .error e => .error e
    | .ok (VolTot, avgState) =>
      let vol := if !volExported then [Chunk.fmt3e VolTot "    "] else []
      match outputStates self elements d tStep rest true with
      | .error e => .error e
      | .ok more =>
        .ok (vol ++ [Chunk.fmtD avgState.length] ++ avgState.map Chunk.fmtE
              ++ [Chunk.text "    "] ++ more)

/-- `HOMExportModule::doOutput`, on the domain `d` (`emodel->giveDomain(1)`): the
chunks the call prints to the stream of the module. -/
def doOutput (self : HOMExportModule) (d : Domain) (tStep : TimeStep) (forcedOutput : Bool) :
    Except Fault (List Chunk) :=
  if !(self.testTimeStepOutput tStep || forcedOutput) then
    .ok []
  else
    let time := [Chunk.fmt3e (Dbl.mul tStep.targetTime self.timeScale) "  "]
    let elements := assembleElements self.regionSets
    let states :=
      if !self.ists.isEmpty then outputStates self elements d tStep self.ists false
      else .ok []
    match states with
    | .error e => .error e
    | .ok body => .ok (time ++ body ++ [Chunk.text "\n"])

/-- The header line that `HOMExportModule::initialize` prints to the stream it
has opened: the column titles `#Time` and `Volume`, then the name of each
internal state type (`__InternalStateTypeToString`, the parameter `name`) and
the newline. -/
def initializeHeader (self : HOMExportModule) (name : Int → String) : List Chunk :=
  [Chunk.text "#Time      Volume       "]
    ++ self.ists.map (fun var => Chunk.text (name var ++ "    "))
    ++ [Chunk.text "\n"]

end HOMExportModule

/-! ## Reference definitions for the averaging of `doOutput` -/

namespace HOMExportModule

/-- The elements of the domain, in the order of the domain, whose number the
list `elements` contains. -/
def selectedElements (elements : IntArray) (d : Domain) : List Element :=
  d.elementList.filter (fun elem => elements.contains elem.number)

/-- The volume `dV` and the value `ipState` of each integration point of an
element, for one internal state type. -/
def pointData (ist : Int) (tStep : TimeStep) (elem : Element) : List (Dbl × FloatArray) :=
  elem.defaultIntegrationRule.map
    (fun gp => (elem.computeVolumeAround gp, elem.giveGlobalIPValue gp ist tStep))

/-- The volumes and values of the integration points of the selected elements. -/
def selectedPoints (elements : IntArray) (d : Domain) (ist : Int) (tStep : TimeStep) :
    List (Dbl × FloatArray) :=
  (selectedElements elements d).flatMap (pointData ist tStep)

/-- The two statements `VolTot += dV` and `avgState.add(dV, ipState)` of
`doOutput`, over a list of pairs `(dV, ipState)`. -/
def accumulateList : List (Dbl × FloatArray) → Dbl × FloatArray →
    Except Fault (Dbl × FloatArray)
  | [], acc => .ok acc
  | (dV, ipState) :: rest, (VolTot, avgState) =>
    match avgState.add dV ipState with
    | .error e => .error e
    | .ok avgState => accumulateList rest (Dbl.add VolTot dV, avgState)

/-- The duplicate-free union of the element lists of the regions. -/
def regionUnion (regionSets : List IntArray) : IntArray :=
  regionSets.flatten.dedup

/-- The total volume in double arithmetic: `((0. + dV_1) + dV_2) + ...`. -/
def volumeSum (vols : List Dbl) : Dbl :=
  vols.foldl Dbl.add (Dbl.fin 0)

/-- The sum `((S + dV_1 * value_1[j]) + dV_2 * value_2[j]) + ...` of component
`j` in double arithmetic, starting from `S`. -/
def componentSumFrom (S : Dbl) (pts : List (Dbl × FloatArray)) (j : Nat) : Dbl :=
  pts.foldl (fun S p => Dbl.add S (Dbl.mul p.1 (p.2.getD j (Dbl.fin 0)))) S

/-- The weighted sum `(dV_1 * value_1[j] + dV_2 * value_2[j]) + ...` of component
`j` in double arithmetic, every product and every sum rounded. -/
def componentSum (pts : List (Dbl × FloatArray)) (j : Nat) : Dbl :=
  match pts with
  | [] => Dbl.fin 0
  | p :: rest => componentSumFrom (Dbl.mul p.1 (p.2.getD j (Dbl.fin 0))) rest j

/-- The length of the value of the first point (0 without a point). -/
def commonLength (pts : List (Dbl × FloatArray)) : Nat :=
  match pts with
  | [] => 0
  | p :: _ => p.2.length

/-- The weighted average of component `j` in double arithmetic, in the order of
the code: the weighted sum times the factor `(1. / VolTot) * scale`. -/
def averageComponent (scale : Dbl) (pts : List (Dbl × FloatArray)) (j : Nat) : Dbl :=
  Dbl.mul (componentSum pts j)
    (Dbl.mul (Dbl.div (Dbl.fin 1) (volumeSum (pts.map Prod.fst))) scale)

/-- The weighted averages of all components: none without a point, else those of
the components `j` below the common length. -/
def averagedComponents (scale : Dbl) (pts : List (Dbl × FloatArray)) : FloatArray :=
  match pts with
  | [] => []
  | p :: rest =>
    (List.range (commonLength (p :: rest))).map (averageComponent scale (p :: rest))

end HOMExportModule

/-! ## Example data -/

namespace Example

/-- A time step: step 1 with target time 2. -/
def step : TimeStep := ⟨1, Dbl.fin 2⟩

/-- An integration point with the number `k` and the weight `w`. -/
def point (k : Nat) (w : ℚ) : GaussPoint MaterialStatus :=
  ⟨k, [], Dbl.fin w, MaterialMode._3dLattice, none⟩

/-- Element 1: three integration points of volumes 1, 2, 3 whose value, for
every internal state type, is 10, 20, 30. -/
def elementA : Element :=
  { number := 1
    defaultIntegrationRule := [point 1 1, point 2 2, point 3 3]
    computeVolumeAround := fun gp => gp.weight
    giveGlobalIPValue := fun gp _ _ =>
      if gp.number = 1 then [Dbl.fin 10]
      else if gp.number = 2 then [Dbl.fin 20]
      else [Dbl.fin 30] }

/-- Element 2, a degenerate element: one integration point of volume 0 and of
value 10. -/
def elementB : Element :=
  { number := 2
    defaultIntegrationRule := [point 1 0]
    computeVolumeAround := fun gp => gp.weight
    giveGlobalIPValue := fun _ _ _ => [Dbl.fin 10] }

/-- A rheologic-chain material with the exponents 1 and 2 and the incremental
modulus 2. -/
def slave : RheoChainMaterial :=
  { alphaOne := Dbl.fin 1, alphaTwo := Dbl.fin 2, giveEModulus := fun _ _ => Dbl.fin 2 }

/-- A domain with the material `slave` as number 1 and the two elements. -/
def domain : Domain :=
  { materialList := [Material.rheoChain slave, Material.other "IsoLE"]
    elementList := [elementA, elementB] }

/-- An export module with the given regions and internal state types, the
factors `scale` and `timeScale` 1, and output due at every step. -/
def exportModule (regionSets : List IntArray) (ists : IntArray) : HOMExportModule :=
  { ists := ists, reactions := false, scale := Dbl.fin 1, timeScale := Dbl.fin 1,
    regionSets := regionSets, testTimeStepOutput := fun _ => true }

/-- The parameters of the master material: modulus 30, exponents 1 and 2. -/
def master : LatticeLinearElastic :=
  { eNormalMean := Dbl.fin 30, alphaOne := Dbl.fin 1, alphaTwo := Dbl.fin 2 }

/-- An input record naming material 1 as the slave. -/
def record : InputRecord := { slaveMat := some 1, baseFields := [] }

end Example

/-! ## Theorems: `LatticeViscoelastic` -/

namespace Dbl

/-- For two doubles that are not `NaN`, the operator `!=` is inequality. -/
theorem ne_eq_true_iff (a b : Dbl) (ha : a ≠ nan) (hb : b ≠ nan) :
    ne a b = true ↔ a ≠ b := by
  cases a <;> cases b <;> simp_all [ne]

/-- The operator `!=` is false exactly on two equal doubles that are not `NaN`. -/
theorem ne_eq_false_iff (a b : Dbl) :
    ne a b = false ↔ a = b ∧ a ≠ nan := by
  cases a <;> cases b <;> simp [ne]

/-- A value strictly within one half of the integer `m` rounds to `m`. -/
theorem roundHalfEven_eq (t : ℚ) (m : ℤ) (hlo : (m : ℚ) - 1 / 2 < t)
    (hhi : t < m + 1 / 2) : roundHalfEven t = m := by
  unfold roundHalfEven
  have hf1 : (⌊t⌋ : ℚ) ≤ t := Int.floor_le t
  have hf2 : t < ⌊t⌋ + 1 := Int.lt_floor_add_one t
  have hm1 : m - 1 < ⌊t⌋ + 1 := by
    have : ((m - 1 : ℤ) : ℚ) < ((⌊t⌋ + 1 : ℤ) : ℚ) := by push_cast; linarith
    exact_mod_cast this
  have hm2 : ⌊t⌋ < m + 1 := by
    have : ((⌊t⌋ : ℤ) : ℚ) < ((m + 1 : ℤ) : ℚ) := by push_cast; linarith
    exact_mod_cast this
  have hcase : ⌊t⌋ = m ∨ ⌊t⌋ = m - 1 := by omega
  rcases hcase with h | h
  · have : t - ⌊t⌋ < 1 / 2 := by rw [h]; linarith
    rw [if_pos this, h]
  · have h3 : (⌊t⌋ : ℚ) = m - 1 := by rw [h]; push_cast; ring
    have h1 : ¬ (t - ⌊t⌋ < 1 / 2) := by rw [h3]; linarith
    have h2 : 1 / 2 < t - ⌊t⌋ := by rw [h3]; linarith
    rw [if_neg h1, if_pos h2, h]; ring

/-- The rounding of a positive `q` of the binade `e` (not subnormal) whose
quotient by the spacing is strictly within one half of `m`. -/
theorem round_eq (q r : ℚ) (e m : ℤ) (hq : 0 < q) (he : -1022 ≤ e)
    (h1 : (2 : ℚ) ^ e ≤ q) (h2 : q < (2 : ℚ) ^ (e + 1))
    (hlo : (m : ℚ) - 1 / 2 < q / (2 : ℚ) ^ (e - 52))
    (hhi : q / (2 : ℚ) ^ (e - 52) < m + 1 / 2)
    (hr : (m : ℚ) * (2 : ℚ) ^ (e - 52) = r) (hfin : r < (2 : ℚ) ^ 1024) :
    round q = fin r := by
  have hlog : Int.log 2 q = e := by
    apply le_antisymm
    · have h3 := (Int.lt_zpow_iff_log_lt (b := 2) (by norm_num) hq (x := e + 1)).mp
        (by exact_mod_cast h2)
      omega
    · exact (Int.zpow_le_iff_le_log (b := 2) (by norm_num) hq).mp (by exact_mod_cast h1)
  have hulp : ulp q = (2 : ℚ) ^ (e - 52) := by
    unfold ulp
    rw [hlog, max_eq_left he]
  have hmag : roundMagnitude q = r := by
    unfold roundMagnitude
    rw [hulp, roundHalfEven_eq _ m hlo hhi, hr]
  unfold round
  rw [if_neg (ne_of_gt hq), abs_of_pos hq, hmag, if_neg (not_le.mpr hfin), if_pos hq]

theorem add_zero_zero : add (fin 0) (fin 0) = fin 0 := by
  simp [add, round]

theorem mul_zero_ten : mul (fin 0) (fin 10) = fin 0 := by
  simp [mul, round]

theorem div_one_zero : div (fin 1) (fin 0) = pinf := by
  simp [div]

theorem mul_pinf_one : mul pinf (fin 1) = pinf := by
  simp [mul, infTimes]

theorem mul_zero_pinf : mul (fin 0) pinf = nan := by
  simp [mul, infTimes]

theorem mul_two_one : mul (fin 2) (fin 1) = fin 2 := by
  show round (2 * 1) = fin 2
  apply round_eq _ _ 1 (2 ^ 52) <;> norm_num

theorem mul_one_two : mul (fin 1) (fin 2) = fin 2 := by
  show round (1 * 2) = fin 2
  apply round_eq _ _ 1 (2 ^ 52) <;> norm_num

theorem div_two_one : div (fin 2) (fin 1) = fin 2 := by
  have h : div (fin 2) (fin 1) = round (2 / 1) := by simp [div]
  rw [h]
  apply round_eq _ _ 1 (2 ^ 52) <;> norm_num

end Dbl

namespace LatticeViscoelastic

/-- C9: `hasMaterialModeCapability(mode)` is true if and only if `mode` is
`_3dLattice`. -/
theorem hasMaterialModeCapability_iff (mode : MaterialMode) :
    hasMaterialModeCapability mode = true ↔ mode = MaterialMode._3dLattice := by
  simp [hasMaterialModeCapability]

/-- C1: when the base-class initialization succeeds, the field `slaveMat` is
present and the slave material is a rheologic-chain material, `initializeFrom`
fails with an `OOFEM_ERROR` if and only if the slave's `alphaOne` differs (`!=`)
from the master's or the slave's `alphaTwo` differs from the master's; when
neither differs it returns the initialized material. -/
theorem initializeFrom_error_iff
    (baseInit : InputRecord → Except Fault LatticeLinearElastic) (domain : Domain)
    (ir : InputRecord) (base : LatticeLinearElastic) (n : Int) (rChM : RheoChainMaterial)
    (hbase : baseInit ir = .ok base) (hslave : ir.slaveMat = some n)
    (hmat : domain.giveMaterial n = .ok (Material.rheoChain rChM)) :
    ((∃ msg, initializeFrom baseInit domain ir = .error (Fault.error msg)) ↔
        (Dbl.ne rChM.alphaOne base.alphaOne = true ∨
          Dbl.ne rChM.alphaTwo base.alphaTwo = true)) ∧
      (Dbl.ne rChM.alphaOne base.alphaOne = false →
        Dbl.ne rChM.alphaTwo base.alphaTwo = false →
        initializeFrom baseInit domain ir
          = .ok { toLatticeLinearElastic := base, slaveMat := n }) := by
  have hcast : giveViscoelasticMaterial
      { toLatticeLinearElastic := base, slaveMat := n } domain = .ok (some rChM) := by
    simp [giveViscoelasticMaterial, hmat]
  have hrun : initializeFrom baseInit domain ir =
      if Dbl.ne rChM.alphaOne base.alphaOne then
        .error (Fault.error
          "a1 must be set to the same value in both master and viscoelastic slave materials")
      else if Dbl.ne rChM.alphaTwo base.alphaTwo then
        .error (Fault.error
          "a2 must be set to the same value in both master and viscoelastic slave materials")
      else .ok { toLatticeLinearElastic := base, slaveMat := n } := by
    simp [initializeFrom, hbase, hslave, IR_GIVE_FIELD, hcast]
  rw [hrun]
  cases h1 : Dbl.ne rChM.alphaOne base.alphaOne <;>
    cases h2 : Dbl.ne rChM.alphaTwo base.alphaTwo <;> simp

/-- C5: `giveLatticeStress3d` returns the zero vector of 6 components for every
total strain, integration point and time step, and leaves the integration point
with its status (committed and temp fields, slave point included) as it was. -/
theorem giveLatticeStress3d_zero (self : LatticeViscoelastic) (totalStrain : FloatArray)
    (gp : GaussPoint LatticeViscoelasticStatus) (tStep : TimeStep) :
    self.giveLatticeStress3d totalStrain gp tStep = (List.replicate 6 (Dbl.fin 0), gp) := by
  rfl

/-- C6, as the code has it: `give3dLatticeStiffnessMatrix` returns the zero
6x6 matrix for every material, response mode, integration point and time step;
the slave's incremental modulus and `eNormalMean` do not enter. -/
theorem give3dLatticeStiffnessMatrix_zero (self : LatticeViscoelastic)
    (rmode : MatResponseMode) (gp : GaussPoint LatticeViscoelasticStatus) (tStep : TimeStep) :
    self.give3dLatticeStiffnessMatrix rmode gp tStep
      = List.replicate 6 (List.replicate 6 (Dbl.fin 0)) := by
  rfl

/-- C6 fails as stated: with `eNormalMean = 1`, the reference operator with all
entries 1 and a slave of incremental modulus 2, the matrix returned is not the
reference operator times the ratio of the moduli. -/
theorem give3dLatticeStiffnessMatrix_not_scaled :
    give3dLatticeStiffnessMatrix
        { eNormalMean := Dbl.fin 1, alphaOne := Dbl.fin 1, alphaTwo := Dbl.fin 1, slaveMat := 1 }
        0 ⟨1, [], Dbl.fin 1, MaterialMode._3dLattice, none⟩ ⟨1, Dbl.fin 0⟩
      ≠ scaledReferenceStiffness
        { eNormalMean := Dbl.fin 1, alphaOne := Dbl.fin 1, alphaTwo := Dbl.fin 1, slaveMat := 1 }
        (List.replicate 6 (List.replicate 6 (Dbl.fin 1)))
        { alphaOne := Dbl.fin 1, alphaTwo := Dbl.fin 1, giveEModulus := fun _ _ => Dbl.fin 2 }
        ⟨0, [], Dbl.fin 0, MaterialMode._3dLattice, none⟩ ⟨1, Dbl.fin 0⟩ := by
  simp [give3dLatticeStiffnessMatrix, scaledReferenceStiffness, FloatMatrix.resize,
    FloatMatrix.zero, FloatMatrix.times, Dbl.div_two_one, Dbl.mul_one_two, List.replicate]

end LatticeViscoelastic

namespace LatticeViscoelasticStatus

/-- C7: on every status, stream and mode `saveContext` ends in the dereference of
the null pointer returned by `giveViscoelasticMatStatus`, and `restoreContext`
never succeeds. -/
theorem saveContext_restoreContext_fail (self : LatticeViscoelasticStatus)
    (stream : DataStream) (mode : ContextMode) :
    self.saveContext stream mode = .error Fault.nullPointer ∧
      ∀ r, self.restoreContext stream mode ≠ .ok r := by
  refine ⟨rfl, ?_⟩
  intro r
  cases stream <;> simp [restoreContext, MaterialStatus.restoreContext, giveViscoelasticMatStatus]

/-- C8: on every status and time step `updateYourself` ends in the dereference of
the null pointer returned by `giveViscoelasticMatStatus`, before any field is
committed. -/
theorem updateYourself_fails (self : LatticeViscoelasticStatus) (tStep : TimeStep) :
    self.updateYourself tStep = .error Fault.nullPointer := by
  rfl

end LatticeViscoelasticStatus

/-! ## Theorems: `HOMExportModule` -/

namespace HOMExportModule

theorem assembleElements_eq_flatten (regionSets : List IntArray) :
    assembleElements regionSets = regionSets.flatten := by
  have h : ∀ (rs : List IntArray) (init : IntArray),
      rs.foldl (fun elements list => elements ++ list) init = init ++ rs.flatten := by
    intro rs
    induction rs with
    | nil => intro init; simp
    | cons r rs ih => intro init; simp [ih]
  simpa [assembleElements] using h regionSets []

theorem accumulatePoints_eq_accumulateList (elem : Element) (ist : Int) (tStep : TimeStep) :
    ∀ (gps : List (GaussPoint MaterialStatus)) (acc : Dbl × FloatArray),
      accumulatePoints elem ist tStep gps acc
        = accumulateList (gps.map (fun gp =>
            (elem.computeVolumeAround gp, elem.giveGlobalIPValue gp ist tStep))) acc := by
  intro gps
  induction gps with
  | nil => intro acc; rfl
  | cons gp rest ih =>
    intro acc
    obtain ⟨VolTot, avgState⟩ := acc
    simp only [accumulatePoints, List.map_cons, accumulateList]
    cases FloatArray.add avgState (elem.computeVolumeAround gp)
        (elem.giveGlobalIPValue gp ist tStep) with
    | error e => rfl
    | ok a => exact ih _

theorem accumulateList_append :
    ∀ (l1 l2 : List (Dbl × FloatArray)) (acc : Dbl × FloatArray),
      accumulateList (l1 ++ l2) acc =
        match accumulateList l1 acc with
        | .error e => .error e
        | .ok acc1 => accumulateList l2 acc1 := by
  intro l1
  induction l1 with
  | nil => intro l2 acc; rfl
  | cons p rest ih =>
    intro l2 acc
    obtain ⟨dV, ipState⟩ := p
    obtain ⟨VolTot, avgState⟩ := acc
    simp only [List.cons_append, accumulateList]
    cases FloatArray.add avgState dV ipState with
    | error e => rfl
    | ok a => exact ih l2 _

theorem accumulateElements_eq_accumulateList (elements : IntArray) (ist : Int)
    (tStep : TimeStep) :
    ∀ (elems : List Element) (acc : Dbl × FloatArray),
      accumulateElements elements ist tStep elems acc
        = accumulateList
            ((elems.filter (fun elem => elements.contains elem.number)).flatMap
              (pointData ist tStep)) acc := by
  intro elems
  induction elems with
  | nil => intro acc; rfl
  | cons elem rest ih =>
    intro acc
    by_cases hc : elements.contains elem.number = true
    · simp only [accumulateElements, hc, if_true, List.filter_cons_of_pos, List.flatMap_cons,
        accumulateList_append, accumulatePoints_eq_accumulateList, pointData]
      cases accumulateList (List.map (fun gp =>
          (elem.computeVolumeAround gp, elem.giveGlobalIPValue gp ist tStep))
          elem.defaultIntegrationRule) acc with
      | error e => rfl
      | ok a => exact ih a
    · have hc2 : elements.contains elem.number = false := by simpa using hc
      have hf : List.filter (fun elem => elements.contains elem.number) (elem :: rest)
          = List.filter (fun elem => elements.contains elem.number) rest :=
        List.filter_cons_of_neg hc
      rw [hf]
      simp only [accumulateElements, hc2]
      exact ih acc

/-- The accumulation of `doOutput` runs over the points of the selected
elements. -/
theorem accumulate_eq_accumulateList (elements : IntArray) (d : Domain) (ist : Int)
    (tStep : TimeStep) :
    accumulate elements d ist tStep
      = accumulateList (selectedPoints elements d ist tStep) (Dbl.fin 0, []) := by
  simp [accumulate, selectedPoints, selectedElements, accumulateElements_eq_accumulateList]

theorem mul_not_finite (x f : Dbl) (hf : f.isFinite = false) :
    (Dbl.mul x f).isFinite = false := by
  cases x <;> cases f <;> simp_all [Dbl.mul, Dbl.isFinite, Dbl.infTimes] <;>
    split_ifs <;> simp [Dbl.isFinite]

theorem accumulate_congr (e1 e2 : IntArray) (h : ∀ x : Int, x ∈ e1 ↔ x ∈ e2) (d : Domain)
    (ist : Int) (tStep : TimeStep) :
    accumulate e1 d ist tStep = accumulate e2 d ist tStep := by
  have hf : selectedElements e1 d = selectedElements e2 d := by
    apply List.filter_congr
    intro elem _
    by_cases hm : elem.number ∈ e1
    · simp [hm, (h _).mp hm]
    · have hm2 : elem.number ∉ e2 := fun h2 => hm ((h _).mpr h2)
      simp [hm, hm2]
  simp [accumulate_eq_accumulateList, selectedPoints, hf]

theorem outputStates_congr (s1 s2 : HOMExportModule) (hs : s1.scale = s2.scale)
    (e1 e2 : IntArray) (h : ∀ x : Int, x ∈ e1 ↔ x ∈ e2) (d : Domain) (tStep : TimeStep) :
    ∀ (ists : List Int) (volExported : Bool),
      outputStates s1 e1 d tStep ists volExported
        = outputStates s2 e2 d tStep ists volExported := by
  intro ists
  induction ists with
  | nil => intro v; rfl
  | cons ist rest ih =>
    intro v
    simp only [outputStates, averagedState, accumulate_congr e1 e2 h, hs, ih true]

theorem outputStates_eq (self : HOMExportModule) (elements : IntArray) (d : Domain)
    (tStep : TimeStep) (V : Dbl) (A : Int → FloatArray) :
    ∀ (ists : List Int) (volExported : Bool),
      (∀ ist ∈ ists, self.averagedState elements d ist tStep = .ok (V, A ist)) →
      outputStates self elements d tStep ists volExported
        = .ok ((if ists = [] ∨ volExported = true then [] else [Chunk.fmt3e V "    "])
            ++ ists.flatMap (fun ist =>
                [Chunk.fmtD (A ist).length] ++ (A ist).map Chunk.fmtE
                  ++ [Chunk.text "    "])) := by
  intro ists
  induction ists with
  | nil => intro v _; simp [outputStates]
  | cons ist rest ih =>
    intro v havg
    have h1 := havg ist (List.mem_cons_self _ _)
    have h2 := ih true (fun i hi => havg i (List.mem_cons_of_mem _ hi))
    simp only [outputStates, h1, h2]
    cases v <;> simp

theorem averagedComponents_length (scale : Dbl) (pts : List (Dbl × FloatArray)) :
    (averagedComponents scale pts).length = commonLength pts := by
  cases pts with
  | nil => rfl
  | cons p rest => simp [averagedComponents]

/-- C3, as the code has it: when output is due or forced and the total volume
`VolTot` that `doOutput` accumulates is zero for every requested kind (with the
accumulated state `acc ist`), `doOutput` applies no guard and produces no
sentinel. It divides `1.` by the zero total and multiplies the accumulated
state by the result times `scale`; the call does not fail, and the vector it
writes for a kind has as many components as the accumulated state (none for an
empty point set), none of them a finite number: each is `NaN` or an infinity. -/
theorem doOutput_zero_volume (self : HOMExportModule) (d : Domain) (tStep : TimeStep)
    (forcedOutput : Bool) (acc : Int → FloatArray)
    (hdue : (self.testTimeStepOutput tStep || forcedOutput) = true)
    (hacc : ∀ ist ∈ self.ists,
      accumulate (assembleElements self.regionSets) d ist tStep
        = .ok (Dbl.fin 0, acc ist)) :
    self.doOutput d tStep forcedOutput
        = .ok ([Chunk.fmt3e (Dbl.mul tStep.targetTime self.timeScale) "  "]
            ++ (if self.ists = [] then [] else [Chunk.fmt3e (Dbl.fin 0) "    "])
            ++ self.ists.flatMap (fun ist =>
                [Chunk.fmtD (acc ist).length]
                  ++ (FloatArray.times (acc ist)
                      (Dbl.mul (Dbl.div (Dbl.fin 1) (Dbl.fin 0)) self.scale)).map Chunk.fmtE
                  ++ [Chunk.text "    "])
            ++ [Chunk.text "\n"]) ∧
      ∀ ist ∈ self.ists,
        ∀ x ∈ FloatArray.times (acc ist)
            (Dbl.mul (Dbl.div (Dbl.fin 1) (Dbl.fin 0)) self.scale),
          x.isFinite = false := by
  have hfac : (Dbl.mul (Dbl.div (Dbl.fin 1) (Dbl.fin 0)) self.scale).isFinite = false := by
    have hdiv : Dbl.div (Dbl.fin 1) (Dbl.fin 0) = Dbl.pinf := by
      simp [Dbl.div]
    rw [hdiv]
    cases self.scale with
    | fin q =>
      simp only [Dbl.mul, Dbl.infTimes]
      split_ifs <;> simp [Dbl.isFinite]
    | pinf => simp [Dbl.mul, Dbl.isFinite]
    | ninf => simp [Dbl.mul, Dbl.isFinite]
    | nan => simp [Dbl.mul, Dbl.isFinite]
  constructor
  · have havg : ∀ ist ∈ self.ists,
        self.averagedState (assembleElements self.regionSets) d ist tStep
          = .ok (Dbl.fin 0, FloatArray.times (acc ist)
              (Dbl.mul (Dbl.div (Dbl.fin 1) (Dbl.fin 0)) self.scale)) := by
      intro ist hist
      simp only [averagedState, hacc ist hist]
    have hout := outputStates_eq self (assembleElements self.regionSets) d tStep
      (Dbl.fin 0)
      (fun ist => FloatArray.times (acc ist)
        (Dbl.mul (Dbl.div (Dbl.fin 1) (Dbl.fin 0)) self.scale))
      self.ists false havg
    by_cases hists : self.ists = []
    · simp [doOutput, hdue, hists]
    · have hne : self.ists.isEmpty = false := by
        cases h : self.ists with
        | nil => exact absurd h hists
        | cons a l => rfl
      simp only [doOutput, hdue, hout, hne, hists]
      simp [FloatArray.times]
  · intro ist _ x hx
    simp only [FloatArray.times, List.mem_map] at hx
    obtain ⟨y, _, rfl⟩ := hx
    exact mul_not_finite y _ hfac

/-- C3 on a degenerate element: over element 2 (one point of volume 0 and value
10) the accumulated total is 0 and the accumulated state is one component 0; the
component written is not a finite number. -/
theorem doOutput_zero_volume_witness :
    accumulate (assembleElements [[2]]) Example.domain 5 Example.step
        = .ok (Dbl.fin 0, [Dbl.fin 0]) ∧
      ∀ x ∈ FloatArray.times [Dbl.fin 0]
          (Dbl.mul (Dbl.div (Dbl.fin 1) (Dbl.fin 0)) (Dbl.fin 1)),
        x.isFinite = false := by
  have hacc : ∀ ist : Int, accumulate (assembleElements [[2]]) Example.domain ist Example.step
      = .ok (Dbl.fin 0, [Dbl.fin 0]) := by
    intro ist
    simp [accumulate, accumulateElements, accumulatePoints, assembleElements,
      FloatArray.add, Example.domain, Example.elementA, Example.elementB, Example.point,
      Dbl.add_zero_zero, Dbl.mul_zero_ten]
  exact ⟨hacc 5,
    (doOutput_zero_volume (Example.exportModule [[2]] [5]) Example.domain Example.step false
      (fun _ => [Dbl.fin 0]) rfl (fun ist _ => hacc ist)).2 5 (by simp [Example.exportModule])⟩

/-- C3 fails as stated: for the region made of the degenerate element 2 the total
volume is zero, and `doOutput` divides by it and writes the component `NaN`. -/
theorem doOutput_zero_volume_writes_nan :
    (Example.exportModule [[2]] [5]).doOutput Example.domain Example.step false
      = .ok [Chunk.fmt3e (Dbl.fin 2) "  ", Chunk.fmt3e (Dbl.fin 0) "    ", Chunk.fmtD 1,
          Chunk.fmtE Dbl.nan, Chunk.text "    ", Chunk.text "\n"] := by
  simp [doOutput, outputStates, averagedState, accumulate, accumulateElements,
    accumulatePoints, assembleElements, FloatArray.add, FloatArray.times,
    Example.exportModule, Example.domain, Example.elementA,
    Example.elementB, Example.point, Example.step, Dbl.add_zero_zero, Dbl.mul_zero_ten,
    Dbl.mul_two_one, Dbl.div_one_zero, Dbl.mul_pinf_one, Dbl.mul_zero_pinf]

theorem mem_assembleElements_iff (regionSets : List IntArray) (x : Int) :
    x ∈ assembleElements regionSets ↔ x ∈ regionUnion regionSets := by
  simp [assembleElements_eq_flatten, regionUnion]

/-- C4: for every collection of region element lists and every domain whose
elements have distinct numbers, the accumulation of `doOutput` (total volume and
state, for every internal state type) and the output as a whole are those
obtained from the duplicate-free union of the lists; the accumulation runs over
the points of the selected elements, and every element number is selected
exactly once if it is the number of a domain element and occurs in some region
list, and not at all otherwise. -/
theorem doOutput_regionUnion (self : HOMExportModule) (d : Domain) (tStep : TimeStep)
    (forcedOutput : Bool) (hnum : (d.elementList.map (fun elem => elem.number)).Nodup) :
    (∀ ist : Int,
        accumulate (assembleElements self.regionSets) d ist tStep
            = accumulate (regionUnion self.regionSets) d ist tStep ∧
          accumulate (assembleElements self.regionSets) d ist tStep
            = accumulateList (selectedPoints (regionUnion self.regionSets) d ist tStep)
                (Dbl.fin 0, [])) ∧
      self.doOutput d tStep forcedOutput
        = doOutput { self with regionSets := [regionUnion self.regionSets] } d tStep
            forcedOutput ∧
      ∀ k : Int,
        ((selectedElements (assembleElements self.regionSets) d).map
            (fun elem => elem.number)).count k
          = if k ∈ regionUnion self.regionSets ∧ k ∈ d.elementList.map (fun elem => elem.number)
            then 1 else 0 := by
  have hmem := mem_assembleElements_iff self.regionSets
  refine ⟨?_, ?_, ?_⟩
  · intro ist
    have h1 := accumulate_congr _ _ hmem d ist tStep
    exact ⟨h1, by rw [h1, accumulate_eq_accumulateList]⟩
  · have hmem2 : ∀ x : Int, x ∈ assembleElements self.regionSets
        ↔ x ∈ assembleElements [regionUnion self.regionSets] := by
      intro x
      rw [hmem x]
      simp [assembleElements]
    have hout := outputStates_congr self { self with regionSets := [regionUnion self.regionSets] }
      rfl _ _ hmem2 d tStep self.ists false
    simp only [doOutput, hout]
  · intro k
    have hmap : (selectedElements (assembleElements self.regionSets) d).map
          (fun elem => elem.number)
        = (d.elementList.map (fun elem => elem.number)).filter
            (fun x => (assembleElements self.regionSets).contains x) := by
      simp [selectedElements, List.filter_map, Function.comp_def]
    rw [hmap, List.count_eq_of_nodup (hnum.filter _)]
    by_cases h1 : k ∈ regionUnion self.regionSets <;>
      by_cases h2 : k ∈ d.elementList.map (fun elem => elem.number) <;>
      simp [List.mem_filter, hmem k, h1, h2]

/-- C4 on an example: with the regions `[1]` and `[1, 1]` over the domain of the
elements 1 and 2, element 1 is selected once and element 2 not at all. -/
theorem doOutput_regionUnion_witness :
    (Example.domain.elementList.map (fun elem => elem.number)).Nodup ∧
      ((selectedElements (assembleElements [[1], [1, 1]]) Example.domain).map
          (fun elem => elem.number)).count 1 = 1 ∧
      ((selectedElements (assembleElements [[1], [1, 1]]) Example.domain).map
          (fun elem => elem.number)).count 2 = 0 := by
  have hnum : (Example.domain.elementList.map (fun elem => elem.number)).Nodup := by
    simp [Example.domain, Example.elementA, Example.elementB]
  have h := (doOutput_regionUnion (Example.exportModule [[1], [1, 1]] [5]) Example.domain
    Example.step false hnum).2.2
  refine ⟨hnum, ?_, ?_⟩
  · rw [show assembleElements [[1], [1, 1]]
        = assembleElements (Example.exportModule [[1], [1, 1]] [5]).regionSets from rfl, h 1]
    simp [regionUnion, Example.exportModule, Example.domain, Example.elementA,
      Example.elementB]
  · rw [show assembleElements [[1], [1, 1]]
        = assembleElements (Example.exportModule [[1], [1, 1]] [5]).regionSets from rfl, h 2]
    simp [regionUnion, Example.exportModule, Example.domain, Example.elementA,
      Example.elementB]

/-- C10: with no requested kind, at a step at which output is due, the line
`doOutput` prints is the time and the newline, without the total volume, while
the header line printed by `initialize` has the column `Volume`. -/
theorem doOutput_no_kinds_no_volume :
    initializeHeader (Example.exportModule [[1]] []) (fun _ => "")
        = [Chunk.text "#Time      Volume       ", Chunk.text "\n"] ∧
      (Example.exportModule [[1]] []).doOutput Example.domain Example.step false
        = .ok [Chunk.fmt3e (Dbl.fin 2) "  ", Chunk.text "\n"] := by
  constructor
  · rfl
  · simp [doOutput, Example.exportModule, Example.step, Dbl.mul_two_one]

end HOMExportModule

namespace LatticeViscoelastic

/-- C1 on an example: a master with the exponents 1 and 2 and a rheologic-chain
slave with the same exponents is initialized without error. -/
theorem initializeFrom_error_iff_witness :
    Example.domain.giveMaterial 1 = .ok (Material.rheoChain Example.slave) ∧
      initializeFrom (fun _ => .ok Example.master) Example.domain Example.record
        = .ok { toLatticeLinearElastic := Example.master, slaveMat := 1 } :=
  ⟨rfl,
    (initializeFrom_error_iff (fun _ => .ok Example.master) Example.domain Example.record
      Example.master 1 Example.slave rfl rfl rfl).2
      (by simp [Dbl.ne, Example.slave, Example.master])
      (by simp [Dbl.ne, Example.slave, Example.master])⟩

end LatticeViscoelastic

end oofem
